import Mathlib

/-!
Shallow embedding of the environment-probe layer of `balena-takeover`
(`src/migrator/stage1/utils.rs`, `src/migrator/stage1/block_device_info/mount.rs`,
`src/migrator/stage1/defs.rs`).

External collaborators (the command executor `call`, the filesystem predicates
`dir_exists` / `file_exists`, `read_to_string`, `create_dir_all` and the `mount`
syscall) are modelled as an explicit environment record of functions; every
probe is a pure Lean function of that environment, translated statement by
statement from the Rust source.
-/

namespace Takeover

/-- Error kinds used by the probe layer, mirroring `ErrorKind` of the crate:
`InvParam` (invalid parameter / parse failure), `ExecProcess` (external
command signalled failure), `NotFound`, `InvState`, and `Upstream` for errors
wrapped with `upstream_with_context`. -/
inductive ErrorKind where
  | InvParam
  | ExecProcess
  | NotFound
  | InvState
  | Upstream
deriving DecidableEq

/-- `Error` of the crate: a kind plus a context message
(`Error::with_context(kind, msg)`). -/
structure Error where
  kind : ErrorKind
  msg : String
deriving DecidableEq

/-- Exit status of an external command: `status.success()` and
`status.code()` of the Rust `ExitStatus`. -/
structure ExitStatus where
  success : Bool
  code : Option Int
deriving DecidableEq

/-- `CmdRes`, the command executor's result type: exit status plus captured
stdout/stderr (stdout already trimmed by the executor, which is invoked with
`trim_stdout = true` at every call site modelled here). -/
structure CmdRes where
  status : ExitStatus
  stdout : String
  stderr : String
deriving DecidableEq

/-- The external world as seen by the probe layer: `file_exists`,
`dir_exists` (fallible in the crate, hence `Except`) and the command
executor `call`. -/
structure Env where
  fileExists : String → Bool
  dirExists : String → Except Error Bool
  call : String → List String → Except Error CmdRes

/-- Modelled from the spec: the command-name constants live in
`common/defs.rs`, which is outside the provided sources; §6 of the spec fixes
them as the `whereis`/`uname`/`mokutil`/`mktemp` equivalents. -/
def WHEREIS_CMD : String := "whereis"

/-- Modelled from the spec: see `WHEREIS_CMD`. -/
def UNAME_CMD : String := "uname"

/-- Modelled from the spec: see `WHEREIS_CMD`. -/
def MOKUTIL_CMD : String := "mokutil"

/-- Modelled from the spec: the firmware interface marker directory
(`SYS_EFI_DIR` in `common/defs.rs`); `defs.rs` in the sources fixes the same
path as `SYS_UEFI_DIR = "/sys/firmware/efi"`. -/
def SYS_EFI_DIR : String := "/sys/firmware/efi"

/-- `upstream_with_context`: wrap an underlying error with a context message
under the `Upstream` kind. -/
def upstreamWithContext (ctx : String) (e : Error) : Error :=
  ⟨ErrorKind.Upstream, ctx ++ ": " ++ e.msg⟩

/-!
String primitives. The Rust standard library's `str` operations are
re-implemented structurally over `List Char` so that every definition is
kernel-computable; each mirrors the exact `str` method named in its comment
(for the ASCII inputs this layer handles).
-/

/-- Splitting a character list at every separator character, keeping empty
pieces: the semantics of Rust's `str::split(c)` (and of `str::split` with a
predicate). -/
def splitChars (p : Char → Bool) : List Char → List (List Char)
  | [] => [[]]
  | c :: cs =>
    let r := splitChars p cs
    if p c then [] :: r
    else
      match r with
      | [] => [[c]]
      | h :: t => (c :: h) :: t

/-- Rust's `str::split(sep)` for a one-character separator. -/
def strSplitChar (sep : Char) (s : String) : List String :=
  (splitChars (fun c => c = sep) s.data).map String.mk

/-- Rust's `str::starts_with(pat)` for a string pattern. -/
def strStartsWith (s pat : String) : Bool :=
  pat.data.isPrefixOf s.data

/-- ASCII lowercasing of one character (the fragment of
`str::to_lowercase` relevant to the probed outputs). -/
def asciiLower (c : Char) : Char :=
  if 'A' ≤ c ∧ c ≤ 'Z' then Char.ofNat (c.toNat + 32) else c

/-- Rust's `str::to_lowercase` on ASCII text. -/
def strToLower (s : String) : String :=
  String.mk (s.data.map asciiLower)

/-- The fixed candidate directories of `whereis` (`BIN_DIRS`). -/
def BIN_DIRS : List String := ["/bin", "/usr/bin", "/sbin", "/usr/sbin"]

/-- The `for path in BIN_DIRS` loop of `whereis`: the first candidate path
`dir/cmd` for which `file_exists` holds, if any. -/
def binDirProbe (env : Env) (cmd : String) : Option String :=
  BIN_DIRS.findSome? (fun dir =>
    let path := dir ++ "/" ++ cmd
    if env.fileExists path then some path else none)

/-- `whereis(cmd)` from `stage1/utils.rs`: probe `BIN_DIRS` for an existing
file first; otherwise run the locator `whereis -b cmd` and take the second
space-separated token of its stdout. -/
def whereis (env : Env) (cmd : String) : Except Error String :=
  match binDirProbe env cmd with
  | some path => Except.ok path
  | none =>
    match env.call WHEREIS_CMD ["-b", cmd] with
    | Except.error why =>
      -- the Debug rendering of the underlying error is approximated by its
      -- message text
      Except.error ⟨ErrorKind.NotFound,
        "whereis failed to execute for: [\x22-b\x22, \x22" ++ cmd
          ++ "\x22], error: " ++ why.msg⟩
    | Except.ok cmd_res =>
      if cmd_res.status.success then
        if cmd_res.stdout = "" then
          Except.error ⟨ErrorKind.InvParam,
            "whereis: no command output for " ++ cmd⟩
        else
          match (strSplitChar ' ' cmd_res.stdout).get? 1 with
          | some s => Except.ok s
          | none =>
            Except.error ⟨ErrorKind.NotFound,
              "whereis: command not found: \x27" ++ cmd ++ "\x27"⟩
      else
        Except.error ⟨ErrorKind.ExecProcess,
          "whereis: command failed for " ++ cmd ++ ": "
            ++ toString (cmd_res.status.code.getD 0)⟩

/-- `OSArch` from `stage1/defs.rs` (the `ARMHF` variant is
`cfg(target_os = "linux")`, the configuration the probe layer targets). -/
inductive OSArch where
  | AMD64
  | ARMHF
  | I386
deriving DecidableEq

/-- `get_os_arch()` from `stage1/utils.rs`: run `uname -m` and normalise the
lowercased stdout to an `OSArch`, failing on unknown values (`InvParam`) and
on non-zero exit (`ExecProcess`). -/
def get_os_arch (env : Env) : Except Error OSArch :=
  match env.call UNAME_CMD ["-m"] with
  | Except.error e =>
    Except.error (upstreamWithContext ("get_os_arch: call " ++ UNAME_CMD) e)
  | Except.ok cmd_res =>
    if cmd_res.status.success then
      if strToLower cmd_res.stdout = "x86_64" then
        Except.ok OSArch.AMD64
      else if strToLower cmd_res.stdout = "i386" then
        Except.ok OSArch.I386
      else if strToLower cmd_res.stdout = "armv7l" then
        Except.ok OSArch.ARMHF
      else
        Except.error ⟨ErrorKind.InvParam,
          "get_os_arch: unsupported architectute \x27" ++ cmd_res.stdout ++ "\x27"⟩
    else
      -- the source appends a Debug rendering of the whole CmdRes here,
      -- which this model elides
      Except.error ⟨ErrorKind.ExecProcess,
        "get_os_arch: command failed: " ++ UNAME_CMD⟩

/-- Rust's `str::lines()`: split on a newline, drop one final empty piece
produced by a trailing newline, and strip a trailing carriage return from
each line. -/
def rustLines (s : String) : List String :=
  let parts := splitChars (fun c => c = '\x0a') s.data
  let parts := if parts.getLast? = some [] then parts.dropLast else parts
  parts.map (fun l =>
    String.mk (if l.getLast? = some '\x0d' then l.dropLast else l))

/-- The ASCII characters matched by the regex class `\s`. -/
def isRegexSpace (c : Char) : Bool :=
  c = ' ' || c = '\x09' || c = '\x0a' || c = '\x0b' || c = '\x0c' || c = '\x0d'

/-- The anchored regex `^SecureBoot\s+(disabled|enabled)$` applied to one
line: `some b` when the line matches (with `b = true` iff the capture is
`enabled`), `none` when it does not. -/
def sbLineMatch (line : String) : Option Bool :=
  if strStartsWith line "SecureBoot" then
    let rest := line.data.drop 10
    let ws := rest.takeWhile isRegexSpace
    let rest2 := rest.dropWhile isRegexSpace
    if ws = [] then none
    else if String.mk rest2 = "enabled" then some true
    else if String.mk rest2 = "disabled" then some false
    else none
  else none

/-- The well-known mokutil stderr message checked with `starts_with` in
`is_secure_boot`. -/
def SB_NOT_SUPPORTED : String := "This system doesn\x27t support Secure Boot"

/-- `is_secure_boot()` from `stage1/utils.rs`: no firmware directory or no
resolvable `mokutil` means `false`; otherwise run `mokutil --sb-state` and
interpret stdout (empty stderr) or stderr (non-empty). -/
def is_secure_boot (env : Env) : Except Error Bool :=
  match env.dirExists SYS_EFI_DIR with
  | Except.error e => Except.error e
  | Except.ok false => Except.ok false
  | Except.ok true =>
    match whereis env MOKUTIL_CMD with
    | Except.error _why => Except.ok false
    | Except.ok mokutil_path =>
      match env.call mokutil_path ["--sb-state"] with
      | Except.error e => Except.error e
      | Except.ok cmd_res =>
        if cmd_res.stderr = "" then
          match (rustLines cmd_res.stdout).findSome? sbLineMatch with
          | some b => Except.ok b
          | none =>
            Except.error ⟨ErrorKind.InvParam,
              "is_secure_boot: failed to parse command output"⟩
        else if strStartsWith cmd_res.stderr SB_NOT_SUPPORTED then
          Except.ok false
        else
          Except.error ⟨ErrorKind.ExecProcess,
            "mokutil returned an error message: \x27" ++ cmd_res.stderr ++ "\x27"⟩

/-- `Mount` from `block_device_info/mount.rs`: a mountpoint path and a
filesystem type (paths modelled as strings). -/
structure Mount where
  mountpoint : String
  fs_type : String
deriving DecidableEq

/-- `MountTab = HashMap<PathBuf, Mount>`, modelled as an association list
with unique keys (`mtInsert` reproduces `HashMap::insert`'s
replace-on-existing-key semantics; iteration order is never observed by this
layer). -/
abbrev MountTab := List (String × Mount)

/-- `HashMap::insert`: replace the entry of an existing key, otherwise add
the binding. -/
def mtInsert : MountTab → String → Mount → MountTab
  | [], k, v => [(k, v)]
  | (k0, v0) :: rest, k, v =>
    if k0 = k then (k, v) :: rest else (k0, v0) :: mtInsert rest k v

/-- `HashMap::get`: look a device key up in the table. -/
def mtLookup (tab : MountTab) (k : String) : Option Mount :=
  (tab.find? (fun p => p.1 = k)).map (fun p => p.2)

/-- Rust's `str::split_whitespace()` on a single mtab line (ASCII
whitespace). -/
def splitWhitespace (s : String) : List String :=
  ((splitChars isRegexSpace s.data).filter (fun t => t ≠ [])).map String.mk

/-- The `InvParam` context message raised for a short mtab line:
`format!("Failed to parse /etc/mtab line {} : '{}'", line_no, line)` with the
0-based line index and the raw line text. -/
def mtabLineErr (line_no : Nat) (line : String) : String :=
  "Failed to parse /etc/mtab line " ++ toString line_no ++ " : \x27" ++ line ++ "\x27"

/-- The `for (line_no, line) in mtab_str.lines().enumerate()` loop of
`Mount::from_mtab`, carrying the running line index and the accumulated
table. -/
def parseMtab : Nat → List String → MountTab → Except Error MountTab
  | _, [], mounts => Except.ok mounts
  | line_no, line :: rest, mounts =>
    let columns := splitWhitespace line
    if columns.length < 3 then
      Except.error ⟨ErrorKind.InvParam, mtabLineErr line_no line⟩
    else
      let device_name := columns.getD 0 ""
      if strStartsWith device_name "/dev/" then
        parseMtab (line_no + 1) rest
          (mtInsert mounts device_name
            ⟨columns.getD 1 "", columns.getD 2 ""⟩)
      else
        parseMtab (line_no + 1) rest mounts

/-- `Mount::from_mtab` from `block_device_info/mount.rs`, as a pure function
of the mount-table text (the `read_to_string("/etc/mtab")` step is the
caller's I/O boundary). -/
def Mount.from_mtab (mtab_str : String) : Except Error MountTab :=
  parseMtab 0 (rustLines mtab_str) []

/-- The whitespace columns of the last line in `lines` whose first column
equals `dev`: later lines take priority, matching the insertion order of the
`from_mtab` loop. -/
def lastDevCols (dev : String) : List String → Option (List String)
  | [] => none
  | line :: rest =>
    match lastDevCols dev rest with
    | some cols => some cols
    | none =>
      if (splitWhitespace line).getD 0 "" = dev then some (splitWhitespace line)
      else none

/-- The externally visible filesystem operations attempted by `mount_fs`, in
order: `create_dir_all(dir)` and the `mount(source, target, fstype)`
syscall. -/
inductive FsEvent where
  | createDirAll (dir : String)
  | mountSys (fs : String) (dir : String) (fs_type : String)
deriving DecidableEq

/-- The external world as seen by `mount_fs`: `dir_exists`,
`create_dir_all` and the `mount` syscall. -/
structure MountEnv where
  dirExists : String → Except Error Bool
  createDirAll : String → Except Error Unit
  mountCall : String → String → String → Except Error Unit

/-- `mount_fs(mount_dir, fs, fs_type, mig_info)` from `stage1/utils.rs`.
The `MigrateInfo` tracking sink is modelled as the list of recorded mount
paths (`add_mount` appends); the result also carries the trace of attempted
filesystem operations so that their order is observable. -/
def mount_fs (env : MountEnv) (mount_dir fs fs_type : String)
    (mig_info : List String) :
    Except Error Unit × List String × List FsEvent :=
  match env.dirExists mount_dir with
  | Except.error e => (Except.error e, mig_info, [])
  | Except.ok dirThere =>
    let createStep : Except Error Unit × List FsEvent :=
      if dirThere then (Except.ok (), [])
      else
        (match env.createDirAll mount_dir with
         | Except.error e =>
           Except.error (upstreamWithContext
             ("Failed to create mount directory \x27" ++ mount_dir ++ "\x27") e)
         | Except.ok () => Except.ok (),
         [FsEvent.createDirAll mount_dir])
    match createStep with
    | (Except.error e, trace) => (Except.error e, mig_info, trace)
    | (Except.ok (), trace) =>
      let trace := trace ++ [FsEvent.mountSys fs mount_dir fs_type]
      match env.mountCall fs mount_dir fs_type with
      | Except.error e =>
        (Except.error (upstreamWithContext
          ("Failed to mount " ++ fs ++ " on " ++ mount_dir
            ++ " with fstype " ++ fs_type) e), mig_info, trace)
      | Except.ok () => (Except.ok (), mig_info ++ [mount_dir], trace)

/-- Containment of `pat` at some position of a character list. -/
def containsSubstrChars (pat : List Char) : List Char → Bool
  | [] => pat.isPrefixOf []
  | c :: rest =>
    if pat.isPrefixOf (c :: rest) then true else containsSubstrChars pat rest

/-- Substring containment, used to state the spec's reading of
"stderr contains the message": `pat` occurs somewhere in `s`. -/
def containsSubstr (s pat : String) : Bool :=
  containsSubstrChars pat.data s.data

/-! Concrete environments and inputs used to instantiate the theorems. -/

/-- A world with no files anywhere and a locator whose stdout names a path
that does not exist. -/
def c1Env : Env :=
  { fileExists := fun _ => false
    dirExists := fun _ => Except.ok false
    call := fun _ _ =>
      Except.ok ⟨⟨true, some 0⟩, "mokutil: /nonexistent/mokutil", ""⟩ }

/-- A world with no files anywhere and a locator that answers with the bare
`name:` line it emits when nothing is found. -/
def c10Env : Env :=
  { fileExists := fun _ => false
    dirExists := fun _ => Except.ok false
    call := fun _ _ => Except.ok ⟨⟨true, some 0⟩, "mokutil:", ""⟩ }

/-- A world where `/bin/mokutil` exists, the firmware directory exists, and
running the helper yields the given result. -/
def mokEnv (res : CmdRes) : Env :=
  { fileExists := fun p => p = "/bin/mokutil"
    dirExists := fun p => Except.ok (p = SYS_EFI_DIR)
    call := fun c args =>
      if c = "/bin/mokutil" ∧ args = ["--sb-state"] then Except.ok res
      else Except.error ⟨ErrorKind.ExecProcess, "unexpected command"⟩ }

/-- A world with the firmware directory present but no filesystem files and
a failing command executor, so that `whereis` cannot resolve `mokutil`. -/
def noMokEnv : Env :=
  { fileExists := fun _ => false
    dirExists := fun p => Except.ok (p = SYS_EFI_DIR)
    call := fun _ _ => Except.error ⟨ErrorKind.ExecProcess, "whereis missing"⟩ }

/-- A world with no firmware interface directory at all. -/
def noEfiEnv : Env :=
  { fileExists := fun _ => false
    dirExists := fun _ => Except.ok false
    call := fun _ _ => Except.error ⟨ErrorKind.ExecProcess, "unexpected command"⟩ }

/-- Helper result: empty stderr and stdout announcing Secure Boot enabled. -/
def sbEnabledRes : CmdRes := ⟨⟨true, some 0⟩, "SecureBoot enabled\x0a", ""⟩

/-- Helper result whose stderr contains, but does not start with, the
well-known "not supported" message. -/
def sbNoteRes : CmdRes :=
  ⟨⟨true, some 0⟩, "", "note: " ++ SB_NOT_SUPPORTED⟩

/-- Helper result whose stderr starts with the well-known "not supported"
message. -/
def sbUnsupportedRes : CmdRes := ⟨⟨true, some 0⟩, "", SB_NOT_SUPPORTED ++ "\x0a"⟩

/-- A world where `uname -m` yields the given result. -/
def unameEnv (res : CmdRes) : Env :=
  { fileExists := fun _ => false
    dirExists := fun _ => Except.ok false
    call := fun c args =>
      if c = UNAME_CMD ∧ args = ["-m"] then Except.ok res
      else Except.error ⟨ErrorKind.ExecProcess, "unexpected command"⟩ }

/-- `uname -m` result with mixed-case stdout `X86_64`. -/
def unameUpperRes : CmdRes := ⟨⟨true, some 0⟩, "X86_64", ""⟩

/-- Mount-table text from §8 of the spec: one block device line and one
pseudo-filesystem line. -/
def c6content : String :=
  "/dev/sda1 /mnt/boot vfat rw 0 0\x0atmpfs /tmp tmpfs rw 0 0"

/-- Mount-table text that mentions the same device twice. -/
def c7content : String := "/dev/sda1 /a ext4\x0a/dev/sda1 /b vfat"

/-- Mount-table text whose second line has only two tokens and a non-`/dev`
first column. -/
def c8content : String := "/dev/sda1 /a ext4\x0aproc /proc"

/-- A mount world where the target directory is absent and directory
creation and the mount syscall both succeed. -/
def okMountEnv : MountEnv :=
  { dirExists := fun _ => Except.ok false
    createDirAll := fun _ => Except.ok ()
    mountCall := fun _ _ _ => Except.ok () }

/-! ### Helper lemmas -/

theorem exists_of_findSome? {α β : Type} (f : α → Option β) :
    ∀ (l : List α) (b : β), l.findSome? f = some b → ∃ a ∈ l, f a = some b := by
  intro l
  induction l with
  | nil => intro b h; cases h
  | cons a t ih =>
    intro b h
    rw [List.findSome?_cons] at h
    cases hfa : f a with
    | some c =>
      rw [hfa] at h
      exact ⟨a, List.mem_cons_self _ _, hfa.trans h⟩
    | none =>
      rw [hfa] at h
      obtain ⟨x, hx, hfx⟩ := ih b h
      exact ⟨x, List.mem_cons_of_mem _ hx, hfx⟩

theorem binDirProbe_file_exists (env : Env) (cmd p : String)
    (h : binDirProbe env cmd = some p) : env.fileExists p = true := by
  obtain ⟨dir, _, hsome⟩ := exists_of_findSome? _ BIN_DIRS p h
  have hsome' : (if env.fileExists (dir ++ "/" ++ cmd) = true
      then some (dir ++ "/" ++ cmd) else none) = some p := hsome
  by_cases hex : env.fileExists (dir ++ "/" ++ cmd) = true
  · rw [if_pos hex] at hsome'
    injection hsome' with hsome'
    exact hsome' ▸ hex
  · rw [if_neg hex] at hsome'
    cases hsome'

/-! ### Helper lemmas about the mount table -/

theorem mtLookup_mtInsert_self (tab : MountTab) (k : String) (v : Mount) :
    mtLookup (mtInsert tab k v) k = some v := by
  induction tab with
  | nil => simp [mtInsert, mtLookup]
  | cons hd tl ih =>
    obtain ⟨k0, v0⟩ := hd
    by_cases h : k0 = k
    · subst h
      simp [mtInsert, mtLookup]
    · simp only [mtInsert, if_neg h]
      simpa [mtLookup, List.find?_cons, h] using ih

theorem mtLookup_mtInsert_ne (tab : MountTab) (k k' : String) (v : Mount)
    (h : k' ≠ k) : mtLookup (mtInsert tab k v) k' = mtLookup tab k' := by
  induction tab with
  | nil => simp [mtInsert, mtLookup, Ne.symm h]
  | cons hd tl ih =>
    obtain ⟨k0, v0⟩ := hd
    by_cases h0 : k0 = k
    · subst h0
      simp [mtInsert, mtLookup, List.find?_cons, Ne.symm h]
    · simp only [mtInsert, if_neg h0]
      by_cases h' : k0 = k'
      · subst h'
        simp [mtLookup, List.find?_cons]
      · simpa [mtLookup, List.find?_cons, h'] using ih

theorem mem_keys_mtInsert (tab : MountTab) (k : String) (v : Mount)
    (x : String) (hx : x ∈ (mtInsert tab k v).map Prod.fst) :
    x ∈ tab.map Prod.fst ∨ x = k := by
  induction tab with
  | nil =>
    simp only [mtInsert, List.map_cons, List.map_nil, List.mem_singleton] at hx
    exact Or.inr hx
  | cons hd tl ih =>
    obtain ⟨k0, v0⟩ := hd
    simp only [mtInsert] at hx
    simp only [List.map_cons, List.mem_cons]
    by_cases h0 : k0 = k
    · rw [if_pos h0] at hx
      simp only [List.map_cons, List.mem_cons] at hx
      rcases hx with hx | hx
      · exact Or.inr hx
      · exact Or.inl (Or.inr hx)
    · rw [if_neg h0] at hx
      simp only [List.map_cons, List.mem_cons] at hx
      rcases hx with hx | hx
      · exact Or.inl (Or.inl hx)
      · rcases ih hx with h | h
        · exact Or.inl (Or.inr h)
        · exact Or.inr h

theorem nodup_keys_mtInsert (tab : MountTab) (k : String) (v : Mount)
    (h : (tab.map Prod.fst).Nodup) : ((mtInsert tab k v).map Prod.fst).Nodup := by
  induction tab with
  | nil => simp [mtInsert]
  | cons hd tl ih =>
    obtain ⟨k0, v0⟩ := hd
    simp only [List.map_cons, List.nodup_cons] at h
    obtain ⟨hk0, htl⟩ := h
    simp only [mtInsert]
    by_cases h0 : k0 = k
    · rw [if_pos h0]
      simp only [List.map_cons, List.nodup_cons]
      exact ⟨h0 ▸ hk0, htl⟩
    · rw [if_neg h0]
      simp only [List.map_cons, List.nodup_cons]
      refine ⟨fun hmem => ?_, ih htl⟩
      rcases mem_keys_mtInsert tl k v k0 hmem with hmem' | hmem'
      · exact hk0 hmem'
      · exact h0 hmem'

theorem parseMtab_cons (n : Nat) (line : String) (rest : List String)
    (acc : MountTab) :
    parseMtab n (line :: rest) acc =
      if (splitWhitespace line).length < 3 then
        Except.error ⟨ErrorKind.InvParam, mtabLineErr n line⟩
      else if strStartsWith ((splitWhitespace line).getD 0 "") "/dev/" then
        parseMtab (n + 1) rest
          (mtInsert acc ((splitWhitespace line).getD 0 "")
            ⟨(splitWhitespace line).getD 1 "", (splitWhitespace line).getD 2 ""⟩)
      else
        parseMtab (n + 1) rest acc := rfl

theorem lastDevCols_cons (dev line : String) (rest : List String) :
    lastDevCols dev (line :: rest) =
      match lastDevCols dev rest with
      | some cols => some cols
      | none =>
        if (splitWhitespace line).getD 0 "" = dev then some (splitWhitespace line)
        else none := rfl

theorem lastDevCols_isSome (dev : String) (lines : List String) (line : String)
    (hmem : line ∈ lines) (hdev : (splitWhitespace line).getD 0 "" = dev) :
    ∃ cols, lastDevCols dev lines = some cols := by
  induction lines with
  | nil => cases hmem
  | cons hd tl ih =>
    rcases List.mem_cons.mp hmem with h | h
    · subst h
      cases hrc : lastDevCols dev tl with
      | some c => exact ⟨c, by rw [lastDevCols_cons, hrc]⟩
      | none =>
        exact ⟨splitWhitespace line, by rw [lastDevCols_cons, hrc]; exact if_pos hdev⟩
    · obtain ⟨c, hc⟩ := ih h
      exact ⟨c, by rw [lastDevCols_cons, hc]⟩

theorem lastDevCols_spec (dev : String) (lines : List String) (cols : List String)
    (h : lastDevCols dev lines = some cols) :
    ∃ line ∈ lines, splitWhitespace line = cols ∧ cols.getD 0 "" = dev := by
  induction lines with
  | nil => cases h
  | cons hd tl ih =>
    rw [lastDevCols_cons] at h
    cases hrc : lastDevCols dev tl with
    | some c =>
      rw [hrc] at h
      have hcc : some c = some cols := h
      obtain ⟨line, hmem, h1, h2⟩ := ih (hrc.trans hcc)
      exact ⟨line, List.mem_cons_of_mem _ hmem, h1, h2⟩
    | none =>
      rw [hrc] at h
      have h' : (if (splitWhitespace hd).getD 0 "" = dev
          then some (splitWhitespace hd) else none) = some cols := h
      by_cases he : (splitWhitespace hd).getD 0 "" = dev
      · rw [if_pos he] at h'
        injection h' with h'
        subst h'
        exact ⟨hd, List.mem_cons_self _ _, rfl, he⟩
      · rw [if_neg he] at h'
        cases h'

theorem parseMtab_wf (lines : List String) : ∀ (n : Nat) (acc : MountTab),
    (∀ l ∈ lines, ¬ (splitWhitespace l).length < 3) →
    ∃ tab, parseMtab n lines acc = Except.ok tab ∧
      ((acc.map Prod.fst).Nodup → (tab.map Prod.fst).Nodup) ∧
      ∀ dev, mtLookup tab dev =
        if strStartsWith dev "/dev/" then
          match lastDevCols dev lines with
          | some cols => some ⟨cols.getD 1 "", cols.getD 2 ""⟩
          | none => mtLookup acc dev
        else mtLookup acc dev := by
  induction lines with
  | nil =>
    intro n acc _
    refine ⟨acc, rfl, fun h => h, fun dev => ?_⟩
    cases hd : strStartsWith dev "/dev/" <;> simp [lastDevCols]
  | cons line rest ih =>
    intro n acc hwf
    have hline := hwf line (List.mem_cons_self _ _)
    have hrest : ∀ l ∈ rest, ¬ (splitWhitespace l).length < 3 :=
      fun l hl => hwf l (List.mem_cons_of_mem _ hl)
    by_cases hdev : strStartsWith ((splitWhitespace line).getD 0 "") "/dev/"
    · obtain ⟨tab, htab, hnd, hchar⟩ :=
        ih (n + 1)
          (mtInsert acc ((splitWhitespace line).getD 0 "")
            ⟨(splitWhitespace line).getD 1 "", (splitWhitespace line).getD 2 ""⟩)
          hrest
      refine ⟨tab, ?_, ?_, fun dev => ?_⟩
      · rw [parseMtab_cons, if_neg hline, if_pos hdev]
        exact htab
      · intro h
        exact hnd (nodup_keys_mtInsert _ _ _ h)
      · rw [hchar dev]
        by_cases hd : strStartsWith dev "/dev/"
        · rw [if_pos hd, if_pos hd, lastDevCols_cons]
          cases hrc : lastDevCols dev rest with
          | some cols => rfl
          | none =>
            by_cases he : (splitWhitespace line).getD 0 "" = dev
            · rw [if_pos he, he]
              exact mtLookup_mtInsert_self acc dev _
            · rw [if_neg he]
              exact mtLookup_mtInsert_ne acc _ dev _ (fun hh => he hh.symm)
        · rw [if_neg hd, if_neg hd]
          refine mtLookup_mtInsert_ne acc _ dev _ (fun hh => ?_)
          rw [hh] at hd
          exact hd hdev
    · obtain ⟨tab, htab, hnd, hchar⟩ := ih (n + 1) acc hrest
      refine ⟨tab, ?_, hnd, fun dev => ?_⟩
      · rw [parseMtab_cons, if_neg hline, if_neg hdev]
        exact htab
      · rw [hchar dev]
        by_cases hd : strStartsWith dev "/dev/"
        · rw [if_pos hd, if_pos hd, lastDevCols_cons]
          cases hrc : lastDevCols dev rest with
          | some cols => rfl
          | none =>
            have he : ¬ (splitWhitespace line).getD 0 "" = dev := by
              intro hh
              rw [hh] at hdev
              exact hdev hd
            show mtLookup acc dev = _
            rw [if_neg he]
        · rw [if_neg hd, if_neg hd]

theorem parseMtab_short (lines : List String) : ∀ (n : Nat) (acc : MountTab),
    (∃ l ∈ lines, (splitWhitespace l).length < 3) →
    ∃ j line, parseMtab n lines acc =
        Except.error ⟨ErrorKind.InvParam, mtabLineErr (n + j) line⟩ ∧
      lines.get? j = some line ∧ (splitWhitespace line).length < 3 := by
  induction lines with
  | nil =>
    rintro n acc ⟨l, hl, _⟩
    cases hl
  | cons line rest ih =>
    intro n acc hex
    by_cases hline : (splitWhitespace line).length < 3
    · refine ⟨0, line, ?_, rfl, hline⟩
      rw [parseMtab_cons, if_pos hline, Nat.add_zero]
    · obtain ⟨l, hl, hshort⟩ := hex
      have hl' : l ∈ rest := by
        rcases List.mem_cons.mp hl with h | h
        · exact absurd (h ▸ hshort) hline
        · exact h
      by_cases hdev : strStartsWith ((splitWhitespace line).getD 0 "") "/dev/"
      · obtain ⟨j, l2, herr, hget, hs⟩ :=
          ih (n + 1)
            (mtInsert acc ((splitWhitespace line).getD 0 "")
              ⟨(splitWhitespace line).getD 1 "", (splitWhitespace line).getD 2 ""⟩)
            ⟨l, hl', hshort⟩
        refine ⟨j + 1, l2, ?_, by simpa using hget, hs⟩
        rw [parseMtab_cons, if_neg hline, if_pos hdev]
        have harith : n + (j + 1) = n + 1 + j := by omega
        rw [harith]
        exact herr
      · obtain ⟨j, l2, herr, hget, hs⟩ := ih (n + 1) acc ⟨l, hl', hshort⟩
        refine ⟨j + 1, l2, ?_, by simpa using hget, hs⟩
        rw [parseMtab_cons, if_neg hline, if_neg hdev]
        have harith : n + (j + 1) = n + 1 + j := by omega
        rw [harith]
        exact herr

/-! ### Claim theorems about the mount-table parser -/

/-- C6: on well-formed mount-table input (every line has at least 3
whitespace columns) the parse succeeds, the table has exactly one entry per
key, every entry is keyed by a `/dev/`-prefixed device equal to column 0 of
some input line with the mountpoint from column 1 and filesystem type from
column 2 of that line (trailing columns ignored), and every line whose first
column starts with `/dev/` contributes an entry — lines whose first column
does not never appear. -/
theorem from_mtab_wellformed (content : String)
    (hwf : ∀ l ∈ rustLines content, ¬ (splitWhitespace l).length < 3) :
    ∃ tab, Mount.from_mtab content = Except.ok tab ∧
      (tab.map Prod.fst).Nodup ∧
      (∀ dev rec, mtLookup tab dev = some rec →
        strStartsWith dev "/dev/" = true ∧
        ∃ cols, lastDevCols dev (rustLines content) = some cols ∧
          (∃ line ∈ rustLines content, splitWhitespace line = cols) ∧
          cols.getD 0 "" = dev ∧
          rec = ⟨cols.getD 1 "", cols.getD 2 ""⟩) ∧
      (∀ line ∈ rustLines content,
        strStartsWith ((splitWhitespace line).getD 0 "") "/dev/" = true →
        ∃ rec, mtLookup tab ((splitWhitespace line).getD 0 "") = some rec) := by
  obtain ⟨tab, htab, hnd, hchar⟩ := parseMtab_wf (rustLines content) 0 [] hwf
  refine ⟨tab, htab, hnd (by simp), ?_, ?_⟩
  · intro dev rec hlook
    rw [hchar dev] at hlook
    by_cases hd : strStartsWith dev "/dev/"
    · refine ⟨hd, ?_⟩
      rw [if_pos hd] at hlook
      cases hrc : lastDevCols dev (rustLines content) with
      | none =>
        rw [hrc] at hlook
        exact Option.noConfusion hlook
      | some cols =>
        rw [hrc] at hlook
        obtain ⟨line, hmem, hsp, hc0⟩ := lastDevCols_spec dev _ cols hrc
        have hrec : some (⟨cols.getD 1 "", cols.getD 2 ""⟩ : Mount) = some rec := hlook
        exact ⟨cols, rfl, ⟨line, hmem, hsp⟩, hc0,
          (Option.some.injEq _ _ ▸ hrec).symm⟩
    · rw [if_neg hd] at hlook
      exact absurd hlook (by simp [mtLookup])
  · intro line hmem hdev
    obtain ⟨cols, hc⟩ :=
      lastDevCols_isSome ((splitWhitespace line).getD 0 "") (rustLines content)
        line hmem rfl
    refine ⟨⟨cols.getD 1 "", cols.getD 2 ""⟩, ?_⟩
    rw [hchar _, if_pos hdev, hc]

/-- C6 witness: the spec §8 example input is well-formed and the theorem
applies to it. -/
theorem from_mtab_wellformed_witness :
    (∀ l ∈ rustLines c6content, ¬ (splitWhitespace l).length < 3) ∧
    (∃ tab, Mount.from_mtab c6content = Except.ok tab ∧
      (tab.map Prod.fst).Nodup ∧
      (∀ dev rec, mtLookup tab dev = some rec →
        strStartsWith dev "/dev/" = true ∧
        ∃ cols, lastDevCols dev (rustLines c6content) = some cols ∧
          (∃ line ∈ rustLines c6content, splitWhitespace line = cols) ∧
          cols.getD 0 "" = dev ∧
          rec = ⟨cols.getD 1 "", cols.getD 2 ""⟩) ∧
      (∀ line ∈ rustLines c6content,
        strStartsWith ((splitWhitespace line).getD 0 "") "/dev/" = true →
        ∃ rec, mtLookup tab ((splitWhitespace line).getD 0 "") = some rec)) :=
  ⟨by decide, from_mtab_wellformed c6content (by decide)⟩

/-- C7: if a well-formed input mentions the same `/dev/*` device in column 0
of two or more lines, the resulting table maps the device to the record built
from the last such line. -/
theorem from_mtab_last_wins (content dev : String)
    (hwf : ∀ l ∈ rustLines content, ¬ (splitWhitespace l).length < 3)
    (hdev : strStartsWith dev "/dev/" = true)
    (_hdup : 2 ≤ ((rustLines content).filter
      (fun l => (splitWhitespace l).getD 0 "" = dev)).length) :
    ∃ tab, Mount.from_mtab content = Except.ok tab ∧
      mtLookup tab dev = (lastDevCols dev (rustLines content)).map
        (fun cols => ⟨cols.getD 1 "", cols.getD 2 ""⟩) := by
  obtain ⟨tab, htab, _, hchar⟩ := parseMtab_wf (rustLines content) 0 [] hwf
  refine ⟨tab, htab, ?_⟩
  rw [hchar dev, if_pos hdev]
  cases hrc : lastDevCols dev (rustLines content) with
  | some cols => rfl
  | none => rfl

/-- C7 witness: an input listing `/dev/sda1` twice yields the record of the
second line. -/
theorem from_mtab_last_wins_witness :
    (2 ≤ ((rustLines c7content).filter
      (fun l => (splitWhitespace l).getD 0 "" = "/dev/sda1")).length) ∧
    (∃ tab, Mount.from_mtab c7content = Except.ok tab ∧
      mtLookup tab "/dev/sda1" = (lastDevCols "/dev/sda1" (rustLines c7content)).map
        (fun cols => ⟨cols.getD 1 "", cols.getD 2 ""⟩)) :=
  ⟨by decide, from_mtab_last_wins c7content "/dev/sda1" (by decide) (by decide)
    (by decide)⟩

/-- C8: an input with a line of fewer than 3 whitespace tokens fails as a
whole with an `InvParam` error whose message carries a 0-based line index and
the raw text of a short line, with no `/dev/` condition on that line. -/
theorem from_mtab_short_line_fails (content : String)
    (h : ∃ l ∈ rustLines content, (splitWhitespace l).length < 3) :
    ∃ i line, Mount.from_mtab content =
        Except.error ⟨ErrorKind.InvParam, mtabLineErr i line⟩ ∧
      (rustLines content).get? i = some line ∧
      (splitWhitespace line).length < 3 := by
  obtain ⟨j, line, herr, hget, hs⟩ := parseMtab_short (rustLines content) 0 [] h
  rw [Nat.zero_add] at herr
  exact ⟨j, line, herr, hget, hs⟩

/-- C8 witness: a short second line with a non-`/dev` first column makes the
whole parse fail. -/
theorem from_mtab_short_line_fails_witness :
    (∃ l ∈ rustLines c8content, (splitWhitespace l).length < 3) ∧
    (∃ i line, Mount.from_mtab c8content =
        Except.error ⟨ErrorKind.InvParam, mtabLineErr i line⟩ ∧
      (rustLines c8content).get? i = some line ∧
      (splitWhitespace line).length < 3) :=
  ⟨by decide, from_mtab_short_line_fails c8content (by decide)⟩

/-! ### Claim theorems about the executable resolver -/

/-- C1 counterexample: with no file existing anywhere, the locator fallback
of `whereis` still returns the second token of the locator's stdout — a path
at which no file exists — so the resolver can return a nonexistent path. -/
theorem whereis_counterexample :
    whereis c1Env "mokutil" = Except.ok "/nonexistent/mokutil" ∧
    c1Env.fileExists "/nonexistent/mokutil" = false :=
  ⟨rfl, rfl⟩

/-- C1 (amended): when `whereis` succeeds, the returned path either passed
the `file_exists` probe of the fixed binary directories, or is the second
space-separated token of the locator's successful non-empty stdout, taken
without any existence verification. -/
theorem whereis_ok_direct_or_locator (env : Env) (cmd path : String)
    (h : whereis env cmd = Except.ok path) :
    env.fileExists path = true ∨
    ∃ res, env.call WHEREIS_CMD ["-b", cmd] = Except.ok res ∧
      res.status.success = true ∧ res.stdout ≠ "" ∧
      (strSplitChar ' ' res.stdout).get? 1 = some path := by
  unfold whereis at h
  split at h
  next p hbin =>
    injection h with h
    exact Or.inl (h ▸ binDirProbe_file_exists env cmd p hbin)
  next hbin =>
    split at h
    next why hcall => cases h
    next res2 hcall =>
      by_cases hsucc : res2.status.success = true
      · rw [if_pos hsucc] at h
        by_cases hempty : res2.stdout = ""
        · rw [if_pos hempty] at h
          cases h
        · rw [if_neg hempty] at h
          split at h
          next s htok =>
            injection h with h
            exact Or.inr ⟨res2, hcall, hsucc, hempty, h ▸ htok⟩
          next htok => cases h
      · rw [if_neg hsucc] at h
        cases h

/-- C1 witness: the amended theorem applied to the counterexample world,
landing in the locator branch. -/
theorem whereis_ok_direct_or_locator_witness :
    c1Env.fileExists "/nonexistent/mokutil" = true ∨
    ∃ res, c1Env.call WHEREIS_CMD ["-b", "mokutil"] = Except.ok res ∧
      res.status.success = true ∧ res.stdout ≠ "" ∧
      (strSplitChar ' ' res.stdout).get? 1 = some "/nonexistent/mokutil" :=
  whereis_ok_direct_or_locator c1Env "mokutil" "/nonexistent/mokutil" rfl

/-- C10: in the locator fallback, a successful locator call with non-empty
stdout but no second space-token (such as the bare `name:` answer) makes
`whereis` fail with a `NotFound` error. -/
theorem whereis_no_second_token (env : Env) (cmd : String) (res : CmdRes)
    (hbin : binDirProbe env cmd = none)
    (hcall : env.call WHEREIS_CMD ["-b", cmd] = Except.ok res)
    (hsucc : res.status.success = true)
    (hne : res.stdout ≠ "")
    (htok : (strSplitChar ' ' res.stdout).get? 1 = none) :
    whereis env cmd = Except.error ⟨ErrorKind.NotFound,
      "whereis: command not found: \x27" ++ cmd ++ "\x27"⟩ := by
  unfold whereis
  simp only [hbin, hcall, if_pos hsucc, if_neg hne, htok]

/-- C10 witness: the locator answering the bare line `mokutil:` yields the
`NotFound` error. -/
theorem whereis_no_second_token_witness :
    whereis c10Env "mokutil" = Except.error ⟨ErrorKind.NotFound,
      "whereis: command not found: \x27mokutil\x27"⟩ :=
  whereis_no_second_token c10Env "mokutil" ⟨⟨true, some 0⟩, "mokutil:", ""⟩
    rfl rfl rfl (by decide) rfl

/-! ### Claim theorems about the architecture probe -/

/-- C5: for a completed `uname -m` invocation, `get_os_arch` maps the
lowercased stdout `x86_64` / `i386` / `armv7l` to `AMD64` / `I386` / `ARMHF`,
fails with `InvParam` (unsupported architecture) on any other stdout, and
fails with `ExecProcess` on a non-zero exit status. -/
theorem get_os_arch_spec (env : Env) (res : CmdRes)
    (hcall : env.call UNAME_CMD ["-m"] = Except.ok res) :
    (res.status.success = true →
      (strToLower res.stdout = "x86_64" →
        get_os_arch env = Except.ok OSArch.AMD64) ∧
      (strToLower res.stdout = "i386" →
        get_os_arch env = Except.ok OSArch.I386) ∧
      (strToLower res.stdout = "armv7l" →
        get_os_arch env = Except.ok OSArch.ARMHF) ∧
      (strToLower res.stdout ≠ "x86_64" → strToLower res.stdout ≠ "i386" →
        strToLower res.stdout ≠ "armv7l" →
        get_os_arch env = Except.error ⟨ErrorKind.InvParam,
          "get_os_arch: unsupported architectute \x27" ++ res.stdout ++ "\x27"⟩)) ∧
    (res.status.success = false →
      get_os_arch env = Except.error ⟨ErrorKind.ExecProcess,
        "get_os_arch: command failed: " ++ UNAME_CMD⟩) := by
  constructor
  · intro hsucc
    refine ⟨fun h1 => ?_, fun h2 => ?_, fun h3 => ?_, fun n1 n2 n3 => ?_⟩
    · unfold get_os_arch
      simp only [hcall, if_pos hsucc, if_pos h1]
    · have n1 : ¬ strToLower res.stdout = "x86_64" := by
        rw [h2]; decide
      unfold get_os_arch
      simp only [hcall, if_pos hsucc, if_neg n1, if_pos h2]
    · have n1 : ¬ strToLower res.stdout = "x86_64" := by
        rw [h3]; decide
      have n2 : ¬ strToLower res.stdout = "i386" := by
        rw [h3]; decide
      unfold get_os_arch
      simp only [hcall, if_pos hsucc, if_neg n1, if_neg n2, if_pos h3]
    · unfold get_os_arch
      simp only [hcall, if_pos hsucc, if_neg n1, if_neg n2, if_neg n3]
  · intro hfail
    have hns : ¬ res.status.success = true := by
      rw [hfail]; decide
    unfold get_os_arch
    simp only [hcall, if_neg hns]

/-- C5 witness: uppercase stdout `X86_64` on a successful invocation maps to
`AMD64`. -/
theorem get_os_arch_spec_witness :
    get_os_arch (unameEnv unameUpperRes) = Except.ok OSArch.AMD64 :=
  ((get_os_arch_spec (unameEnv unameUpperRes) unameUpperRes rfl).1
    rfl).1 (by decide)

/-! ### Claim theorems about the secure-boot probe -/

/-- C2: when the firmware directory exists, `mokutil` resolves and its
invocation yields empty stderr, `is_secure_boot` scans stdout line by line
with the anchored pattern `SecureBoot <whitespace> (disabled|enabled)`: the
first matching line decides the boolean (true iff `enabled`), and with no
matching line the probe fails with an `InvParam` parse error instead of
returning false. -/
theorem is_secure_boot_stdout_scan (env : Env) (path : String) (res : CmdRes)
    (hdir : env.dirExists SYS_EFI_DIR = Except.ok true)
    (hwhere : whereis env MOKUTIL_CMD = Except.ok path)
    (hcall : env.call path ["--sb-state"] = Except.ok res)
    (hstderr : res.stderr = "") :
    (∀ b, (rustLines res.stdout).findSome? sbLineMatch = some b →
      is_secure_boot env = Except.ok b) ∧
    ((rustLines res.stdout).findSome? sbLineMatch = none →
      is_secure_boot env = Except.error ⟨ErrorKind.InvParam,
        "is_secure_boot: failed to parse command output"⟩) := by
  constructor
  · intro b hb
    unfold is_secure_boot
    simp only [hdir, hwhere, hcall, if_pos hstderr, hb]
  · intro hn
    unfold is_secure_boot
    simp only [hdir, hwhere, hcall, if_pos hstderr, hn]

/-- C2 witness: stdout `SecureBoot enabled` with empty stderr yields
`true`. -/
theorem is_secure_boot_stdout_scan_witness :
    is_secure_boot (mokEnv sbEnabledRes) = Except.ok true :=
  (is_secure_boot_stdout_scan (mokEnv sbEnabledRes) "/bin/mokutil"
    sbEnabledRes rfl rfl rfl rfl).1 true (by decide)

/-- C3 counterexample: a stderr that contains the well-known "not supported"
message without starting with it makes the probe fail with `ExecProcess`
instead of returning false, refuting the "contains" reading of the claim. -/
theorem is_secure_boot_contains_counterexample :
    containsSubstr sbNoteRes.stderr SB_NOT_SUPPORTED = true ∧
    sbNoteRes.stderr ≠ "" ∧
    is_secure_boot (mokEnv sbNoteRes) = Except.error ⟨ErrorKind.ExecProcess,
      "mokutil returned an error message: \x27note: " ++ SB_NOT_SUPPORTED
        ++ "\x27"⟩ :=
  ⟨rfl, by decide, rfl⟩

/-- C3 (amended): for a helper invocation with non-empty stderr, the probe
returns false when stderr starts with (rather than merely contains) the
well-known "not supported" message, and otherwise fails with an
`ExecProcess` error whose message carries the stderr text; stdout is not
consulted (the arbitrary `res.stdout` never influences the result). -/
theorem is_secure_boot_stderr_spec (env : Env) (path : String) (res : CmdRes)
    (hdir : env.dirExists SYS_EFI_DIR = Except.ok true)
    (hwhere : whereis env MOKUTIL_CMD = Except.ok path)
    (hcall : env.call path ["--sb-state"] = Except.ok res)
    (hstderr : res.stderr ≠ "") :
    (strStartsWith res.stderr SB_NOT_SUPPORTED = true →
      is_secure_boot env = Except.ok false) ∧
    (strStartsWith res.stderr SB_NOT_SUPPORTED = false →
      is_secure_boot env = Except.error ⟨ErrorKind.ExecProcess,
        "mokutil returned an error message: \x27" ++ res.stderr ++ "\x27"⟩) := by
  constructor
  · intro hsb
    unfold is_secure_boot
    simp only [hdir, hwhere, hcall, if_neg hstderr, if_pos hsb]
  · intro hsb
    have hsb' : ¬ strStartsWith res.stderr SB_NOT_SUPPORTED = true := by
      rw [hsb]; decide
    unfold is_secure_boot
    simp only [hdir, hwhere, hcall, if_neg hstderr, if_neg hsb']

/-- C3 witness: a stderr equal to the well-known message (plus newline)
yields `false`. -/
theorem is_secure_boot_stderr_spec_witness :
    is_secure_boot (mokEnv sbUnsupportedRes) = Except.ok false :=
  (is_secure_boot_stderr_spec (mokEnv sbUnsupportedRes) "/bin/mokutil"
    sbUnsupportedRes rfl rfl rfl (by decide)).1 (by decide)

/-- C4: the probe returns false — not an error — when the firmware interface
directory does not exist, and likewise when it exists but the helper cannot
be resolved by `whereis`. -/
theorem is_secure_boot_graceful_false (env : Env)
    (h : env.dirExists SYS_EFI_DIR = Except.ok false ∨
      (env.dirExists SYS_EFI_DIR = Except.ok true ∧
        ∃ e, whereis env MOKUTIL_CMD = Except.error e)) :
    is_secure_boot env = Except.ok false := by
  rcases h with h | ⟨h1, e, h2⟩
  · unfold is_secure_boot
    simp only [h]
  · unfold is_secure_boot
    simp only [h1, h2]

/-- C4 witness: a world with the firmware directory present but no way to
resolve `mokutil` yields `false`. -/
theorem is_secure_boot_graceful_false_witness :
    is_secure_boot noMokEnv = Except.ok false :=
  is_secure_boot_graceful_false noMokEnv
    (Or.inr ⟨rfl, ⟨ErrorKind.NotFound,
      "whereis failed to execute for: [\x22-b\x22, \x22mokutil\x22], error: whereis missing"⟩,
      rfl⟩)

/-! ### Claim theorem about the filesystem mounter -/

/-- C9: `mount_fs` records the target in the tracking sink exactly on
success (appending it after the mount), leaves the sink unchanged on any
failure (directory-creation or mount failure included), and when the target
directory is absent any attempted mount is preceded by the
`create_dir_all` attempt in the operation trace. -/
theorem mount_fs_spec (env : MountEnv) (mount_dir fs fs_type : String)
    (mig_info : List String) :
    ((mount_fs env mount_dir fs fs_type mig_info).1 = Except.ok () →
      (mount_fs env mount_dir fs fs_type mig_info).2.1 =
        mig_info ++ [mount_dir]) ∧
    ((∃ e, (mount_fs env mount_dir fs fs_type mig_info).1 = Except.error e) →
      (mount_fs env mount_dir fs fs_type mig_info).2.1 = mig_info) ∧
    (env.dirExists mount_dir = Except.ok false →
      FsEvent.mountSys fs mount_dir fs_type ∈
        (mount_fs env mount_dir fs fs_type mig_info).2.2 →
      (mount_fs env mount_dir fs fs_type mig_info).2.2 =
        [FsEvent.createDirAll mount_dir,
          FsEvent.mountSys fs mount_dir fs_type]) := by
  cases hdir : env.dirExists mount_dir with
  | error e0 =>
    refine ⟨fun hok => ?_, fun _ => ?_, fun hd hm => ?_⟩
    · rw [show (mount_fs env mount_dir fs fs_type mig_info).1 =
          Except.error e0 by simp [mount_fs, hdir]] at hok
      cases hok
    · simp [mount_fs, hdir]
    · cases hd
  | ok dirThere =>
    cases dirThere with
    | true =>
      cases hmc : env.mountCall fs mount_dir fs_type with
      | error e =>
        refine ⟨fun hok => ?_, fun _ => ?_, fun hd hm => ?_⟩
        · rw [show (mount_fs env mount_dir fs fs_type mig_info).1 =
              Except.error (upstreamWithContext
                ("Failed to mount " ++ fs ++ " on " ++ mount_dir
                  ++ " with fstype " ++ fs_type) e)
              by simp [mount_fs, hdir, hmc]] at hok
          cases hok
        · simp [mount_fs, hdir, hmc]
        · injection hd with hd
          cases hd
      | ok u =>
        cases u
        refine ⟨fun _ => ?_, fun he => ?_, fun hd hm => ?_⟩
        · simp [mount_fs, hdir, hmc]
        · obtain ⟨e, he⟩ := he
          rw [show (mount_fs env mount_dir fs fs_type mig_info).1 =
              Except.ok () by simp [mount_fs, hdir, hmc]] at he
          cases he
        · injection hd with hd
          cases hd
    | false =>
      cases hcd : env.createDirAll mount_dir with
      | error e =>
        refine ⟨fun hok => ?_, fun _ => ?_, fun hd hm => ?_⟩
        · rw [show (mount_fs env mount_dir fs fs_type mig_info).1 =
              Except.error (upstreamWithContext
                ("Failed to create mount directory \x27" ++ mount_dir ++ "\x27") e)
              by simp [mount_fs, hdir, hcd]] at hok
          cases hok
        · simp [mount_fs, hdir, hcd]
        · rw [show (mount_fs env mount_dir fs fs_type mig_info).2.2 =
              [FsEvent.createDirAll mount_dir] by simp [mount_fs, hdir, hcd]] at hm
          rcases List.mem_singleton.mp hm with h
          cases h
      | ok u =>
        cases u
        cases hmc : env.mountCall fs mount_dir fs_type with
        | error e =>
          refine ⟨fun hok => ?_, fun _ => ?_, fun _ _ => ?_⟩
          · rw [show (mount_fs env mount_dir fs fs_type mig_info).1 =
                Except.error (upstreamWithContext
                  ("Failed to mount " ++ fs ++ " on " ++ mount_dir
                    ++ " with fstype " ++ fs_type) e)
                by simp [mount_fs, hdir, hcd, hmc]] at hok
            cases hok
          · simp [mount_fs, hdir, hcd, hmc]
          · simp [mount_fs, hdir, hcd, hmc]
        | ok u2 =>
          cases u2
          refine ⟨fun _ => ?_, fun he => ?_, fun _ _ => ?_⟩
          · simp [mount_fs, hdir, hcd, hmc]
          · obtain ⟨e, he⟩ := he
            rw [show (mount_fs env mount_dir fs fs_type mig_info).1 =
                Except.ok () by simp [mount_fs, hdir, hcd, hmc]] at he
            cases he
          · simp [mount_fs, hdir, hcd, hmc]

/-- C9 witness: in a world where the absent directory is created and the
mount succeeds, the sink gains exactly the target path. -/
theorem mount_fs_spec_witness :
    (mount_fs okMountEnv "/mnt/balena" "/dev/sda1" "ext4" ["/prev"]).2.1 =
      ["/prev"] ++ ["/mnt/balena"] :=
  (mount_fs_spec okMountEnv "/mnt/balena" "/dev/sda1" "ext4" ["/prev"]).1 rfl

end Takeover
